import Mathlib

/-!
Verification development for the valaam chants downloader
(src/valaam.py).  The script is a linear pipeline: fetch a page,
extract options or a playlist with a regular expression, let the user
select, download the audio and write id3 tags.  Every function below is
a shallow embedding of the corresponding Python function; network, the
file system and standard input are passed in explicitly (an oracle
function, an association list, a list of input lines).  Strings are
modelled as lists of characters, bytes as natural numbers below 256.
-/

abbrev Str := List Char

/-! ## Regular expression engine

The two patterns of the script (chant_pattern, playlist_pattern) use
only literals, character classes with greedy + and *, a lazy dot-star
and capturing groups of those.  A pattern is compiled to a flat token
list; capturing groups become gOpen and gClose markers that consume no
input.  The matcher implements the standard backtracking semantics of
the Python re module: alternatives are explored in priority order
(greedy quantifiers longest first, lazy quantifiers shortest first) and
the first complete match wins.  Fuel bounds the recursion depth; every
recursive call either drops a token or consumes one input character, so
tokens + characters + 1 is always enough fuel. -/

inductive Tok where
  | lit (c : Char)
  | starG (p : Char → Bool)
  | plusG (p : Char → Bool)
  | starL (p : Char → Bool)
  | gOpen
  | gClose

/-- Anchored match of a token list against the beginning of a string.
Returns the unmatched remainder and, for every group marker crossed,
the length of the string that remained at that marker (from which the
captured substrings are reconstructed). -/
def mtch : Nat → List Tok → Str → Option (Str × List Nat)
  | 0, _, _ => none
  | _ + 1, [], s => some (s, [])
  | f + 1, .lit c :: rest, s =>
    match s with
    | [] => none
    | a :: s' => if a = c then mtch f rest s' else none
  | f + 1, .starG p :: rest, s =>
    match s with
    | [] => mtch f rest []
    | a :: s' =>
      if p a then
        match mtch f (.starG p :: rest) s' with
        | some r => some r
        | none => mtch f rest s
      else mtch f rest s
  | f + 1, .plusG p :: rest, s =>
    match s with
    | [] => none
    | a :: s' => if p a then mtch f (.starG p :: rest) s' else none
  | f + 1, .starL p :: rest, s =>
    match mtch f rest s with
    | some r => some r
    | none =>
      match s with
      | [] => none
      | a :: s' => if p a then mtch f (.starL p :: rest) s' else none
  | f + 1, .gOpen :: rest, s =>
    match mtch f rest s with
    | some (r, evs) => some (r, s.length :: evs)
    | none => none
  | f + 1, .gClose :: rest, s =>
    match mtch f rest s with
    | some (r, evs) => some (r, s.length :: evs)
    | none => none

/-- Fuel sufficient for an anchored match attempt. -/
def mfuel (ts : List Tok) (s : Str) : Nat := ts.length + s.length + 1

/-- Captured substrings of a successful anchored match on s, from the
marker events (remaining lengths at gOpen / gClose, in group order; the
groups of both patterns are sequential, never nested). -/
def capsOf (s : Str) : List Nat → List Str
  | o :: c :: evs => ((s.drop (s.length - o)).take (o - c)) :: capsOf s evs
  | _ => []

/-- One match attempt at the current position, as re.findall or
re.search would perform it. -/
def tryAt (ts : List Tok) (s : Str) : Option (Str × List Str) :=
  match mtch (mfuel ts s) ts s with
  | some (rem, evs) => some (rem, capsOf s evs)
  | none => none

/-- re.findall: scan left to right, collect non-overlapping matches in
document order; after a non-empty match continue at its end, after an
empty match advance one character. -/
def findallGo (ts : List Tok) : Nat → Str → List (List Str)
  | 0, _ => []
  | f + 1, s =>
    match tryAt ts s with
    | some (rem, caps) =>
      if rem.length < s.length then caps :: findallGo ts f rem
      else
        match s with
        | [] => [caps]
        | _ :: s' => caps :: findallGo ts f s'
    | none =>
      match s with
      | [] => []
      | _ :: s' => findallGo ts f s'

def findall (ts : List Tok) (s : Str) : List (List Str) :=
  findallGo ts (s.length + 1) s

/-- re.search: captures of the leftmost match, if any. -/
def research (ts : List Tok) : Nat → Str → Option (List Str)
  | 0, _ => none
  | f + 1, s =>
    match tryAt ts s with
    | some (_, caps) => some caps
    | none =>
      match s with
      | [] => none
      | _ :: s' => research ts f s'

def resea (ts : List Tok) (s : Str) : Option (List Str) :=
  research ts (s.length + 1) s

/-! ## The two patterns of the script -/

/-- ASCII portion of the whitespace class backslash-s of the re module. -/
def pySpace (c : Char) : Bool :=
  c == ' ' || c == '\t' || c == '\n' || c == '\r' || c == '\x0b' || c == '\x0c'

def lits (s : String) : List Tok := s.data.map .lit

def notQuote (c : Char) : Bool := c != '"'

def notGt (c : Char) : Bool := c != '>'

/-- chant_pattern of the source, compiled:
an anchor tag with an href, a chants-title class and a title. -/
def chant_pattern : List Tok :=
  lits "<a" ++ [.plusG pySpace] ++ lits "href=" ++ [.lit '"'] ++
  [.gOpen, .plusG notQuote, .gClose] ++ [.lit '"'] ++
  [.starG notGt, .plusG pySpace] ++ lits "class=" ++ [.lit '"'] ++
  lits "chants-title" ++ [.starG notQuote] ++ [.lit '"'] ++
  [.plusG pySpace] ++ lits "title=" ++ [.lit '"'] ++
  [.gOpen, .plusG notQuote, .gClose] ++ [.lit '"', .lit '>']

/-- playlist_pattern of the source, compiled; the dot-star is lazy and
the script passes re.DOTALL, so the class is every character. -/
def playlist_pattern : List Tok :=
  lits "window.vmAudioPlayer(" ++
  [.gOpen, .lit '{', .starL (fun _ => true), .lit '}', .gClose] ++
  lits ");"

/-! ## Python dict model

A dict is an association list in insertion order.  Writing to an
existing key keeps its position and replaces the value; writing a new
key appends. -/

def dictInsert {α : Type} (d : List (Str × α)) (k : Str) (v : α) :
    List (Str × α) :=
  match d with
  | [] => [(k, v)]
  | (q, w) :: rest =>
    if q = k then (k, v) :: rest else (q, w) :: dictInsert rest k v

def pyDict {α : Type} (ps : List (Str × α)) : List (Str × α) :=
  ps.foldl (fun d p => dictInsert d p.1 p.2) []

def dictLook {α : Type} (d : List (Str × α)) (k : Str) : Option α :=
  match d with
  | [] => none
  | (q, w) :: rest => if q = k then some w else dictLook rest k

/-! ## get_options

The fetch (get_page) is factored out: the function below takes the
already fetched page text, applies re.findall with the given pattern
and builds the title-to-href dict, raising RuntimeError "No results."
when the match list is empty.  findall with a two-group pattern yields
pairs (group 1, group 2) = (href, title). -/

def optionMatches (ts : List Tok) (html : Str) : List (Str × Str) :=
  (findall ts html).map (fun caps => (caps.headD [], (caps.drop 1).headD []))

def get_options (ts : List Tok) (html : Str) : Except Str (List (Str × Str)) :=
  let ms := optionMatches ts html
  if ms.isEmpty then .error "No results.".data
  else .ok (pyDict (ms.map (fun m => (m.2, m.1))))

/-! ## JSON values and json.loads

Model of the subset of Python json.loads that the embedded playlist
payload can use: null, booleans, numbers (kept as their lexeme),
strings with the standard escapes, arrays and objects.  Objects are
built with dict semantics (a duplicated key keeps its first position
and the last value).  A parse error corresponds to JSONDecodeError. -/

inductive Json where
  | jnull
  | jbool (b : Bool)
  | jnum (lexeme : Str)
  | jstr (s : Str)
  | jarr (xs : List Json)
  | jobj (kvs : List (Str × Json))

def jsonWs (c : Char) : Bool := c == ' ' || c == '\t' || c == '\n' || c == '\r'

def skipWs : Str → Str
  | [] => []
  | c :: rest => if jsonWs c then skipWs rest else c :: rest

def hexVal (c : Char) : Option Nat :=
  if '0' ≤ c ∧ c ≤ '9' then some (c.toNat - '0'.toNat)
  else if 'a' ≤ c ∧ c ≤ 'f' then some (c.toNat - 'a'.toNat + 10)
  else if 'A' ≤ c ∧ c ≤ 'F' then some (c.toNat - 'A'.toNat + 10)
  else none

/-- Body of a JSON string after the opening quote: returns the decoded
characters and the input after the closing quote.  Control characters
must be escaped; a unicode escape in the high surrogate range must be
followed by a low one (the pair combines), a lone low surrogate is
rejected. -/
def parseJStr : Nat → Str → Option (Str × Str)
  | 0, _ => none
  | f + 1, s =>
    match s with
    | [] => none
    | '"' :: rest => some ([], rest)
    | '\\' :: e :: rest =>
      match e with
      | '"' => (parseJStr f rest).map (fun p => ('"' :: p.1, p.2))
      | '\\' => (parseJStr f rest).map (fun p => ('\\' :: p.1, p.2))
      | '/' => (parseJStr f rest).map (fun p => ('/' :: p.1, p.2))
      | 'b' => (parseJStr f rest).map (fun p => ('\x08' :: p.1, p.2))
      | 'f' => (parseJStr f rest).map (fun p => ('\x0c' :: p.1, p.2))
      | 'n' => (parseJStr f rest).map (fun p => ('\n' :: p.1, p.2))
      | 'r' => (parseJStr f rest).map (fun p => ('\r' :: p.1, p.2))
      | 't' => (parseJStr f rest).map (fun p => ('\t' :: p.1, p.2))
      | 'u' =>
        match rest with
        | a :: b :: c :: d :: rest1 =>
          match hexVal a, hexVal b, hexVal c, hexVal d with
          | some ha, some hb, some hc, some hd =>
            let n := ((ha * 16 + hb) * 16 + hc) * 16 + hd
            if 0xD800 ≤ n ∧ n < 0xDC00 then
              match rest1 with
              | '\\' :: 'u' :: a2 :: b2 :: c2 :: d2 :: rest2 =>
                match hexVal a2, hexVal b2, hexVal c2, hexVal d2 with
                | some h2a, some h2b, some h2c, some h2d =>
                  let m := ((h2a * 16 + h2b) * 16 + h2c) * 16 + h2d
                  if 0xDC00 ≤ m ∧ m < 0xE000 then
                    (parseJStr f rest2).map (fun p =>
                      (Char.ofNat (0x10000 + (n - 0xD800) * 0x400 + (m - 0xDC00)) :: p.1, p.2))
                  else none
                | _, _, _, _ => none
              | _ => none
            else if 0xDC00 ≤ n ∧ n < 0xE000 then none
            else (parseJStr f rest1).map (fun p => (Char.ofNat n :: p.1, p.2))
          | _, _, _, _ => none
        | _ => none
      | _ => none
    | c :: rest =>
      if c.toNat < 0x20 then none
      else (parseJStr f rest).map (fun p => (c :: p.1, p.2))

/-- Digit run of a JSON integer part: a single zero, or a nonzero digit
followed by digits. -/
def lexIntDigits : Str → Option (Str × Str)
  | [] => none
  | c :: rest =>
    if c = '0' then some (['0'], rest)
    else if c.isDigit then
      some (c :: rest.takeWhile Char.isDigit, rest.dropWhile Char.isDigit)
    else none

def lexFrac (s : Str) : Option (Str × Str) :=
  match s with
  | '.' :: rest =>
    if (rest.takeWhile Char.isDigit).isEmpty then none
    else some ('.' :: rest.takeWhile Char.isDigit, rest.dropWhile Char.isDigit)
  | _ => some ([], s)

def lexExpPart (s : Str) : Option (Str × Str) :=
  match s with
  | [] => some ([], s)
  | e :: rest =>
    if e = 'e' ∨ e = 'E' then
      match rest with
      | [] => none
      | sgn :: rest2 =>
        if sgn = '+' ∨ sgn = '-' then
          if (rest2.takeWhile Char.isDigit).isEmpty then none
          else some (e :: sgn :: rest2.takeWhile Char.isDigit, rest2.dropWhile Char.isDigit)
        else if (rest.takeWhile Char.isDigit).isEmpty then none
        else some (e :: rest.takeWhile Char.isDigit, rest.dropWhile Char.isDigit)
    else some ([], s)

def lexNumCore (s : Str) : Option (Str × Str) :=
  match lexIntDigits s with
  | none => none
  | some (i, r1) =>
    match lexFrac r1 with
    | none => none
    | some (fr, r2) =>
      match lexExpPart r2 with
      | none => none
      | some (ex, r3) => some (i ++ fr ++ ex, r3)

def lexNum (s : Str) : Option (Str × Str) :=
  match s with
  | '-' :: rest => (lexNumCore rest).map (fun p => ('-' :: p.1, p.2))
  | _ => lexNumCore s

/-- Parser modes: a value, the elements of an array after its opening
bracket, the items of an object after its opening brace. -/
inductive PM where
  | pval
  | parrElems (acc : List Json)
  | pobjItems (acc : List (Str × Json))

/-- Recursive descent over the JSON grammar.  Every recursive call
consumes at least one character first, so length + 2 fuel suffices. -/
def parseJ : Nat → PM → Str → Except Str (Json × Str)
  | 0, _, _ => .error "out of fuel".data
  | f + 1, .pval, s0 =>
    match skipWs s0 with
    | '{' :: rest =>
      match skipWs rest with
      | '}' :: r2 => .ok (.jobj [], r2)
      | r1 => parseJ f (.pobjItems []) r1
    | '[' :: rest =>
      match skipWs rest with
      | ']' :: r2 => .ok (.jarr [], r2)
      | r1 => parseJ f (.parrElems []) r1
    | '"' :: rest =>
      match parseJStr (rest.length + 1) rest with
      | some (cs, r) => .ok (.jstr cs, r)
      | none => .error "invalid string".data
    | 't' :: 'r' :: 'u' :: 'e' :: r => .ok (.jbool true, r)
    | 'f' :: 'a' :: 'l' :: 's' :: 'e' :: r => .ok (.jbool false, r)
    | 'n' :: 'u' :: 'l' :: 'l' :: r => .ok (.jnull, r)
    | s =>
      match lexNum s with
      | some (l, r) => .ok (.jnum l, r)
      | none => .error "Expecting value".data
  | f + 1, .parrElems acc, s =>
    match parseJ f .pval s with
    | .error e => .error e
    | .ok (v, rest) =>
      match skipWs rest with
      | ',' :: r2 => parseJ f (.parrElems (acc ++ [v])) r2
      | ']' :: r2 => .ok (.jarr (acc ++ [v]), r2)
      | _ => .error "expected comma or close bracket".data
  | f + 1, .pobjItems acc, s =>
    match skipWs s with
    | '"' :: rest =>
      match parseJStr (rest.length + 1) rest with
      | some (k, r1) =>
        match skipWs r1 with
        | ':' :: r2 =>
          match parseJ f .pval r2 with
          | .error e => .error e
          | .ok (v, r3) =>
            match skipWs r3 with
            | ',' :: r4 => parseJ f (.pobjItems (dictInsert acc k v)) r4
            | '}' :: r4 => .ok (.jobj (dictInsert acc k v), r4)
            | _ => .error "expected comma or close brace".data
        | _ => .error "expected colon".data
      | none => .error "invalid string".data
    | _ => .error "expecting property name".data

/-- json.loads: parse one value, only whitespace may follow. -/
def jsonLoads (s : Str) : Except Str Json :=
  match parseJ (s.length + 2) .pval s with
  | .error e => .error e
  | .ok (v, rest) => if (skipWs rest).isEmpty then .ok v else .error "Extra data".data

/-! ## Python exceptions that the script can raise -/

inductive PyErr where
  | typeError (msg : Str)
  | keyError (key : Str)
  | stopIteration
  | runtimeError (msg : Str)
  | unicodeDecodeError
deriving DecidableEq

/-- Python subscript v[k] with a string key: object lookup (KeyError
when the key is absent), TypeError on every non-object value. -/
def jsonSubscript (j : Json) (k : Str) : Except PyErr Json :=
  match j with
  | .jobj kvs =>
    match dictLook kvs k with
    | some v => .ok v
    | none => .error (.keyError k)
  | _ => .error (.typeError "value is not subscriptable by a string".data)

/-! ## get_playlist

Takes the already fetched page text.  re.search with playlist_pattern
and re.DOTALL; on a match the first group is passed to json.loads and
its songs entry is returned.  Only JSONDecodeError is caught: a missing
songs key raises KeyError past the function.  The first component of
the result collects the printed diagnostics. -/

def get_playlist (html : Str) : List Str × Except PyErr Json :=
  match resea playlist_pattern html with
  | some caps =>
    match jsonLoads (caps.headD []) with
    | .ok d =>
      match jsonSubscript d "songs".data with
      | .ok songs => ([], .ok songs)
      | .error e => ([], .error e)
    | .error e => (["Failed to parse JSON: ".data ++ e], .ok (.jarr []))
  | none => (["Block not found".data], .ok (.jarr []))

/-! ## int() and str.lower() -/

def strLower (s : Str) : Str := s.map Char.toLower

/-- Python int() applied to a string: surrounding whitespace is
stripped, an optional sign precedes a nonempty digit run (digit-group
underscores are not modelled). -/
def digitsVal (ds : Str) : Option Nat :=
  if ds.isEmpty ∨ ¬ ds.all Char.isDigit then none
  else some (ds.foldl (fun a c => a * 10 + (c.toNat - '0'.toNat)) 0)

def pyStrip (s : Str) : Str :=
  ((s.dropWhile pySpace).reverse.dropWhile pySpace).reverse

def pyInt (s : Str) : Option Int :=
  match pyStrip s with
  | '+' :: ds => (digitsVal ds).map Int.ofNat
  | '-' :: ds => (digitsVal ds).map (fun n => -(n : Int))
  | ds => (digitsVal ds).map Int.ofNat

/-! ## list_and_select

Standard input is a list of lines; the result pairs the printed lines
with the outcome: procQuit models the quit() call that terminates the
process, picked the returned (value, key) pair, none an exhausted input
list (the Python loop would still be waiting for input).  Each round
prints the menu again; out of range and unparsable input each add their
corrective message.  The quoted letter q of the source messages is kept
without its quotes. -/

def str_of_nat (n : Nat) : Str := (toString n).data

def menu_lines (options : List (Str × Str)) : List Str :=
  (List.range options.length).map
    (fun i => str_of_nat i ++ ". ".data ++ (options.getD i ([], [])).1)

def range_msg (n : Nat) : Str :=
  "Please select a number between 0 and ".data ++ (toString ((n : Int) - 1)).data ++ ".".data

def invalid_msg : Str :=
  "Invalid input. Please enter a valid number or q to quit.".data

inductive SelOutcome where
  | procQuit
  | picked (value : Str) (key : Str)
deriving DecidableEq

def list_and_select (options : List (Str × Str)) : List Str → List Str × Option SelOutcome
  | [] => ([], none)
  | inp :: rest =>
    let menu := menu_lines options
    if strLower inp = "q".data then (menu, some .procQuit)
    else
      match pyInt inp with
      | some i =>
        if 0 ≤ i ∧ i < (options.length : Int) then
          (menu, some (.picked (options.getD i.toNat ([], [])).2
                               (options.getD i.toNat ([], [])).1))
        else
          let r := list_and_select options rest
          (menu ++ [range_msg options.length] ++ r.1, r.2)
      | none =>
        let r := list_and_select options rest
        (menu ++ [invalid_msg] ++ r.1, r.2)

/-! ## UTF-8 decoding (strict, as bytes.decode("utf-8")) -/

def utf8_cont (b : Nat) : Bool := decide (0x80 ≤ b ∧ b < 0xC0)

def utf8_decode_go : Nat → List Nat → Option Str
  | 0, _ => none
  | _ + 1, [] => some []
  | f + 1, b :: bs =>
    if b < 0x80 then (utf8_decode_go f bs).map (List.cons (Char.ofNat b))
    else if b < 0xC2 then none
    else if b < 0xE0 then
      match bs with
      | b1 :: bs' =>
        if utf8_cont b1 then
          (utf8_decode_go f bs').map (List.cons (Char.ofNat ((b - 0xC0) * 0x40 + (b1 - 0x80))))
        else none
      | _ => none
    else if b < 0xF0 then
      match bs with
      | b1 :: b2 :: bs' =>
        if utf8_cont b1 && utf8_cont b2 then
          let cp := (b - 0xE0) * 0x1000 + (b1 - 0x80) * 0x40 + (b2 - 0x80)
          if 0x800 ≤ cp ∧ ¬ (0xD800 ≤ cp ∧ cp < 0xE000) then
            (utf8_decode_go f bs').map (List.cons (Char.ofNat cp))
          else none
        else none
      | _ => none
    else if b < 0xF5 then
      match bs with
      | b1 :: b2 :: b3 :: bs' =>
        if utf8_cont b1 && utf8_cont b2 && utf8_cont b3 then
          let cp := (b - 0xF0) * 0x40000 + (b1 - 0x80) * 0x1000 + (b2 - 0x80) * 0x40 + (b3 - 0x80)
          if 0x10000 ≤ cp ∧ cp ≤ 0x10FFFF then
            (utf8_decode_go f bs').map (List.cons (Char.ofNat cp))
          else none
        else none
      | _ => none
    else none

def utf8_decode (body : List Nat) : Option Str :=
  if body.all (· < 256) then utf8_decode_go (body.length + 1) body else none

/-! ## get_page

The network is an oracle from (url, timeout) to either a transport
level failure (any requests.RequestException: timeout, connection
error, and the HTTPError that raise_for_status raises for a status in
400..599) or a response with a status and a byte body.  The function
performs the one GET of the source with timeout 10, converts a caught
RequestException into RuntimeError with the cause appended, and decodes
the body as UTF-8 (an invalid body raises UnicodeDecodeError, which is
not caught anywhere). -/

inductive HttpAnswer where
  | failed (msg : Str)
  | resp (status : Nat) (body : List Nat)

def fetch_err_text : Str := "Failed to retrieve the page: ".data

def http_err_msg (status : Nat) : Str := str_of_nat status ++ " Error".data

def get_page (http : Str → Nat → HttpAnswer) (url : Str) : Except PyErr Str :=
  match http url 10 with
  | .failed m => .error (.runtimeError (fetch_err_text ++ m))
  | .resp st body =>
    if 400 ≤ st ∧ st < 600 then
      .error (.runtimeError (fetch_err_text ++ http_err_msg st))
    else
      match utf8_decode body with
      | some t => .ok t
      | none => .error .unicodeDecodeError

/-! ## base_url

The source builds base_url from urlsplit(chants_url): scheme and
netloc recombined.  The split at the first "://" and at the next "/"
is modelled directly. -/

def chants_url : Str := "https://valaam.ru/chants/".data

def splitSchemeSep : Str → Option (Str × Str)
  | [] => none
  | ':' :: '/' :: '/' :: rest => some ([], rest)
  | c :: rest => (splitSchemeSep rest).map (fun p => (c :: p.1, p.2))

def base_url : Str :=
  match splitSchemeSep chants_url with
  | some (scheme, rest) => scheme ++ "://".data ++ rest.takeWhile (fun c => c != '/')
  | none => []

/-! ## Worlds, songs and tags -/

structure Song where
  name : Str
  url : Str
  artist : Str
deriving DecidableEq

structure Tags where
  title : Str
  album : Str
  artist : Str
  tracknumber : Str
deriving DecidableEq

/-- Observable state: the files written (path to bytes, overwriting),
the chronological log of tag writes (add_metadata saves) and the lines
printed. -/
structure World where
  fs : List (Str × List Nat)
  tagLog : List (Str × Tags)
  out : List Str
deriving DecidableEq

/-! ## download_mp3

The binary GET is an oracle from the final url to either the streamed
chunk list (iter_content) or a transport failure.  A url that does not
start with "http" is prefixed with base_url.  The file is opened with
mode wb, so a successful download replaces any previous content with
the concatenation of the non-empty chunks; a failure prints the error
line and returns False. -/

inductive DlResp where
  | chunks (cs : List (List Nat))
  | failed (msg : Str)

def strStarts : Str → Str → Bool
  | [], _ => true
  | _ :: _, [] => false
  | p :: ps, c :: cs => p == c && strStarts ps cs

def resolve_url (url : Str) : Str :=
  if strStarts "http".data url then url else base_url ++ url

def dl_err_line (file_path msg : Str) : Str :=
  "Error downloading ".data ++ file_path ++ ": ".data ++ msg

def download_mp3 (http : Str → DlResp) (w : World) (url file_path : Str) :
    World × Bool :=
  let u := if strStarts "http".data url then url else base_url ++ url
  match http u with
  | .chunks cs =>
    ({ w with fs := dictInsert w.fs file_path ((cs.filter (fun c => !c.isEmpty)).flatten) }, true)
  | .failed m =>
    ({ w with out := w.out ++ [dl_err_line file_path m] }, false)

/-! ## add_metadata as a Python call

add_metadata has four required parameters.  A call is modelled by the
standard binding of Python: positional arguments fill the parameters in
order, keyword arguments bind by name, and a parameter left unbound
raises TypeError before the body runs.  The body sets the four EasyID3
fields title, album, artist and tracknumber (the last one through str);
it requires the song argument to be a track record and the album
argument to be a string, anything else fails inside mutagen. -/

inductive PyVal where
  | vstr (s : Str)
  | vsong (sg : Song)
  | vint (n : Nat)
deriving DecidableEq

def add_metadata_params : List Str :=
  ["file_path".data, "album_data".data, "song_data".data, "track_number".data]

def bindParams (params : List Str) (pos : List PyVal) (kw : List (Str × PyVal)) :
    Except Str (List (Str × PyVal)) :=
  if params.length < pos.length then .error "too many positional arguments".data
  else if kw.any (fun p => !(params.contains p.1)) then
    .error "unexpected keyword argument".data
  else if kw.any (fun p => (params.take pos.length).contains p.1) then
    .error "got multiple values for argument".data
  else
    let bound := params.zip pos ++ kw
    match params.find? (fun q => !(bound.any (fun b => b.1 == q))) with
    | some missing => .error ("missing required argument: ".data ++ missing)
    | none => .ok bound

def call_add_metadata (pos : List PyVal) (kw : List (Str × PyVal)) :
    Except PyErr Tags :=
  match bindParams add_metadata_params pos kw with
  | .error m => .error (.typeError m)
  | .ok env =>
    match (env.find? (fun b => b.1 == "song_data".data)).map Prod.snd,
          (env.find? (fun b => b.1 == "album_data".data)).map Prod.snd,
          (env.find? (fun b => b.1 == "track_number".data)).map Prod.snd with
    | some (.vsong sg), some (.vstr alb), some (.vint tn) =>
      .ok { title := sg.name, album := alb, artist := sg.artist, tracknumber := str_of_nat tn }
    | _, _, _ => .error (.typeError "bad argument type for tag fields".data)

/-! ## download_playlist

Forward slash joins paths (the script runs the downloads under a
downloads root).  enumerate starts at 1; a failed download skips the
tag write and the loop continues; a tag call that raised would abort
the whole loop (Except), which for the bulk call never happens. -/

def folder_path_of (album : Str) : Str := "downloads/".data ++ album

def track_file_path (album nm : Str) : Str :=
  folder_path_of album ++ "/".data ++ nm ++ ".mp3".data

def download_playlist_go (http : Str → DlResp) (album : Str) :
    World → List Song → Nat → Except PyErr World
  | w, [], _ => .ok w
  | w, song :: rest, idx =>
    let fp := track_file_path album song.name
    let r := download_mp3 http w song.url fp
    if r.2 then
      match call_add_metadata [.vstr fp, .vstr album, .vsong song]
          [("track_number".data, .vint idx)] with
      | .error e => .error e
      | .ok tg =>
        download_playlist_go http album
          { r.1 with tagLog := r.1.tagLog ++ [(fp, tg)] } rest (idx + 1)
    else download_playlist_go http album r.1 rest (idx + 1)

def download_playlist (http : Str → DlResp) (w : World) (songs : List Song)
    (album : Str) : Except PyErr World :=
  download_playlist_go http album w songs 1

/-! ## The single-track branch of main

Lines 235-248 of the source after the selection: the name-to-url dict
the menu was built from, the download into downloads/album/name.mp3,
then on success the re-location of the full record by first match on
name, the 1-based index, and the tag call of line 246 - which passes
file_path and song_data positionally and track_number by keyword,
leaving the parameter song_data unbound. -/

def song_urls_of (playlist : List Song) : List (Str × Str) :=
  pyDict (playlist.map (fun sg => (sg.name, sg.url)))

def downloaded_line (fp : Str) : Str :=
  "Downloaded and added metadata to ".data ++ fp

def main_download_one (http : Str → DlResp) (w : World) (playlist : List Song)
    (album selected_song song_name : Str) : Except PyErr World :=
  let fp := track_file_path album song_name
  let r := download_mp3 http w selected_song fp
  if r.2 then
    match playlist.find? (fun sg => sg.name == song_name) with
    | none => .error .stopIteration
    | some song_data =>
      let song_index := playlist.indexOf song_data + 1
      match call_add_metadata [.vstr fp, .vsong song_data]
          [("track_number".data, .vint song_index)] with
      | .error e => .error e
      | .ok tg =>
        .ok { r.1 with tagLog := r.1.tagLog ++ [(fp, tg)],
                       out := r.1.out ++ [downloaded_line fp] }
  else .ok { r.1 with out := r.1.out ++ [downloaded_line fp] }

/-! ## Concrete fixtures for witnesses and counterexamples -/

def w0 : World := ⟨[], [], []⟩

def songA : Song := ⟨"Song1".data, "/s1.mp3".data, "X".data⟩

def songB : Song := ⟨"Song2".data, "/s2.mp3".data, "Y".data⟩

def songC : Song := ⟨"Song3".data, "/s3.mp3".data, "Z".data⟩

def httpOneChunk : Str → DlResp := fun _ => .chunks [[1]]

def httpFailS2 : Str → DlResp := fun u =>
  if u = "https://valaam.ru/s2.mp3".data then .failed "e".data else .chunks [[1]]

def goodPage : Str :=
  "window.vmAudioPlayer(\x7b\"songs\":[\x7b\"name\":\"S\",\"url\":\"/u\",\"artist\":\"X\"\x7d]\x7d);".data

def goodSongs : List Json :=
  [.jobj [("name".data, .jstr "S".data), ("url".data, .jstr "/u".data),
          ("artist".data, .jstr "X".data)]]

def badJsonPage : Str := "window.vmAudioPlayer(\x7boops\x7d);".data

def noSongsPage : Str := "window.vmAudioPlayer(\x7b\"a\":1\x7d);".data

def dupTitlePage : Str :=
  ("<a href=\"u1\" class=\"chants-title\" title=\"T\">" ++
   "<a href=\"u2\" class=\"chants-title\" title=\"T\">").data

def oneAnchorPage : Str := "<a href=\"u1\" class=\"chants-title\" title=\"T\">".data

/-- Success flag of a download through the oracle, after url
resolution; download_mp3 succeeds exactly when this holds and the
outcome for one url never depends on the downloads made before it. -/
def dl_ok (http : Str → DlResp) (url : Str) : Bool :=
  match http (resolve_url url) with
  | .chunks _ => true
  | .failed _ => false

/-- Tag writes of the bulk loop as the spec describes them: one entry
per song whose download succeeds, its track number the 1-based
position, counted from base independently of the other songs. -/
def bulk_tags (http : Str → DlResp) (album : Str) : List Song → Nat → List (Str × Tags)
  | [], _ => []
  | sg :: rest, i =>
    (if dl_ok http sg.url then
      [(track_file_path album sg.name,
        ⟨sg.name, album, sg.artist, str_of_nat i⟩)]
     else []) ++ bulk_tags http album rest (i + 1)

/-! ## Helper lemmas -/

theorem dictInsert_append_of_new {α : Type} (k : Str) (v : α) :
    ∀ d : List (Str × α), (∀ p ∈ d, p.1 ≠ k) → dictInsert d k v = d ++ [(k, v)] := by
  intro d
  induction d with
  | nil => intro _; rfl
  | cons q rest ih =>
    intro h
    have hq : q.1 ≠ k := h q (by simp)
    simp only [dictInsert]
    rw [if_neg hq, ih (fun p hp => h p (by simp [hp]))]
    simp

theorem pyDict_foldl_eq {α : Type} :
    ∀ (ps acc : List (Str × α)), ((acc ++ ps).map Prod.fst).Nodup →
      ps.foldl (fun d p => dictInsert d p.1 p.2) acc = acc ++ ps := by
  intro ps
  induction ps with
  | nil => intro acc _; simp
  | cons p rest ih =>
    intro acc h
    have hnew : ∀ q ∈ acc, q.1 ≠ p.1 := by
      intro q hq he
      have h' := h
      rw [List.map_append] at h'
      have hd := List.disjoint_of_nodup_append h'
      have hmem : q.1 ∈ acc.map Prod.fst := List.mem_map.mpr ⟨q, hq, rfl⟩
      have hmem2 : p.1 ∈ ((p :: rest).map Prod.fst) :=
        List.mem_map.mpr ⟨p, List.mem_cons_self p rest, rfl⟩
      exact (List.disjoint_left.mp hd hmem) (he ▸ hmem2)
    simp only [List.foldl_cons]
    rw [dictInsert_append_of_new p.1 p.2 acc hnew, ih (acc ++ [p]) (by simpa using h)]
    simp

theorem pyDict_eq_self {α : Type} (ps : List (Str × α))
    (h : (ps.map Prod.fst).Nodup) : pyDict ps = ps := by
  have := pyDict_foldl_eq ps [] (by simpa using h)
  simpa [pyDict] using this

theorem dictLook_dictInsert {α : Type} (k : Str) (v : α) :
    ∀ d : List (Str × α), dictLook (dictInsert d k v) k = some v := by
  intro d
  induction d with
  | nil => simp [dictInsert, dictLook]
  | cons q rest ih =>
    by_cases hq : q.1 = k
    · simp [dictInsert, dictLook, hq]
    · simp only [dictInsert]
      rw [if_neg hq]
      simp only [dictLook]
      rw [if_neg hq]
      exact ih

theorem flatten_filter_nonempty (cs : List (List Nat)) :
    (cs.filter (fun c => !c.isEmpty)).flatten = cs.flatten := by
  induction cs with
  | nil => rfl
  | cons c rest ih => cases c <;> simp [List.filter_cons, ih]

/-! ## Claims -/

/-- C4: for every page text with zero matches of the option pattern,
get_options raises the hard RuntimeError "No results."; in particular
it never returns a mapping, empty or not. -/
theorem c4_get_options_no_matches_errors (html : Str)
    (h : optionMatches chant_pattern html = []) :
    get_options chant_pattern html = .error "No results.".data ∧
    ∀ d, get_options chant_pattern html ≠ .ok d := by
  have h1 : get_options chant_pattern html = .error "No results.".data := by
    simp [get_options, h]
  exact ⟨h1, fun d hd => Except.noConfusion (h1 ▸ hd)⟩

theorem c4_get_options_no_matches_errors_witness :
    optionMatches chant_pattern "x".data = [] ∧
    get_options chant_pattern "x".data = .error "No results.".data :=
  ⟨by decide, (c4_get_options_no_matches_errors "x".data (by decide)).1⟩

/-- C2 (amended): on every page with at least one match of the option
pattern whose captured titles are pairwise distinct, get_options
returns the title-to-href mapping, its size is the match count and its
keys are exactly the captured titles in document order.  (Without the
distinctness hypothesis the dict comprehension collapses duplicate
titles, see the counterexample.) -/
theorem c2_options_dict_distinct_titles (html : Str)
    (hne : optionMatches chant_pattern html ≠ [])
    (hnd : ((optionMatches chant_pattern html).map Prod.snd).Nodup) :
    get_options chant_pattern html =
      .ok ((optionMatches chant_pattern html).map (fun m => (m.2, m.1))) ∧
    ((optionMatches chant_pattern html).map (fun m => (m.2, m.1))).length =
      (optionMatches chant_pattern html).length ∧
    ((optionMatches chant_pattern html).map (fun m => (m.2, m.1))).map Prod.fst =
      (optionMatches chant_pattern html).map Prod.snd := by
  have hkeys : ((optionMatches chant_pattern html).map (fun m => (m.2, m.1))).map Prod.fst =
      (optionMatches chant_pattern html).map Prod.snd := by
    simp
  have hpd : pyDict ((optionMatches chant_pattern html).map (fun m => (m.2, m.1))) =
      (optionMatches chant_pattern html).map (fun m => (m.2, m.1)) :=
    pyDict_eq_self _ (by rw [hkeys]; exact hnd)
  have hfalse : (optionMatches chant_pattern html).isEmpty = false := by
    cases hE : (optionMatches chant_pattern html).isEmpty
    · rfl
    · exact absurd (List.isEmpty_iff.mp hE) hne
  refine ⟨?_, by simp, hkeys⟩
  simp [get_options, hfalse, hpd]

theorem c2_options_dict_distinct_titles_witness :
    get_options chant_pattern oneAnchorPage = .ok [("T".data, "u1".data)] ∧
    optionMatches chant_pattern oneAnchorPage = [("u1".data, "T".data)] :=
  ⟨by
    have h := (c2_options_dict_distinct_titles oneAnchorPage (by decide) (by decide)).1
    rw [h]; rfl,
   by decide⟩

/-- C2 counterexample: on a page whose two anchors share the title T
the returned dict has one entry while the pattern matches twice, so the
claimed size equality fails. -/
theorem c2_duplicate_titles_counterexample :
    optionMatches chant_pattern dupTitlePage ≠ [] ∧
    ¬ ∃ d, get_options chant_pattern dupTitlePage = .ok d ∧
        d.length = (optionMatches chant_pattern dupTitlePage).length := by
  refine ⟨by decide, ?_⟩
  rintro ⟨d, hd, hlen⟩
  have hev : get_options chant_pattern dupTitlePage = .ok [("T".data, "u2".data)] := by rfl
  rw [hev] at hd
  injection hd with hd'
  have h2 : (optionMatches chant_pattern dupTitlePage).length = 2 := by decide
  rw [← hd', h2] at hlen
  exact absurd hlen (by decide)

/-- C3: get_playlist on a page whose embedded payload parses and holds
a songs array returns exactly that array with nothing printed; on a
page with no matching block, or whose payload fails JSON parsing, it
prints the diagnostic and returns the empty list without raising. -/
theorem c3_get_playlist_contract (html : Str) :
    (∀ caps j songs, resea playlist_pattern html = some caps →
        jsonLoads (caps.headD []) = .ok j →
        jsonSubscript j "songs".data = .ok (.jarr songs) →
        get_playlist html = ([], .ok (.jarr songs))) ∧
    (resea playlist_pattern html = none →
        get_playlist html = (["Block not found".data], .ok (.jarr []))) ∧
    (∀ caps e, resea playlist_pattern html = some caps →
        jsonLoads (caps.headD []) = .error e →
        get_playlist html = (["Failed to parse JSON: ".data ++ e], .ok (.jarr []))) := by
  refine ⟨?_, ?_, ?_⟩
  · intro caps j songs h1 h2 h3
    simp only [get_playlist, h1, h2, h3]
  · intro h1
    simp only [get_playlist, h1]
  · intro caps e h1 h2
    simp only [get_playlist, h1, h2]

theorem c3_get_playlist_contract_witness :
    get_playlist goodPage = ([], .ok (.jarr goodSongs)) ∧
    get_playlist "x".data = (["Block not found".data], .ok (.jarr [])) ∧
    get_playlist badJsonPage =
      (["Failed to parse JSON: ".data ++ "expecting property name".data], .ok (.jarr [])) :=
  ⟨(c3_get_playlist_contract goodPage).1 _ _ _ rfl rfl rfl,
   (c3_get_playlist_contract "x".data).2.1 rfl,
   (c3_get_playlist_contract badJsonPage).2.2 _ _ rfl rfl⟩

/-- C9: when the payload parses as an object without a songs key,
get_playlist raises KeyError (nothing is printed, no empty list is
returned): the except clause only catches JSONDecodeError. -/
theorem c9_missing_songs_keyerror (html : Str) :
    ∀ caps kvs, resea playlist_pattern html = some caps →
      jsonLoads (caps.headD []) = .ok (.jobj kvs) →
      dictLook kvs "songs".data = none →
      get_playlist html = ([], .error (.keyError "songs".data)) := by
  intro caps kvs h1 h2 h3
  simp only [get_playlist, h1, h2, jsonSubscript, h3]

theorem c9_missing_songs_keyerror_witness :
    get_playlist noSongsPage = ([], .error (.keyError "songs".data)) :=
  c9_missing_songs_keyerror noSongsPage _ _ rfl rfl rfl

/-- A digit is unchanged by Char.toLower (digits are outside the
uppercase range). -/
theorem toLower_of_isDigit (c : Char) (h : c.isDigit = true) : c.toLower = c := by
  have h' : c.val ≥ 48 ∧ c.val ≤ 57 := by
    simpa [Char.isDigit, Bool.and_eq_true, decide_eq_true_eq] using h
  have hn : c.toNat ≤ 57 := h'.2
  simp only [Char.toLower]
  rw [if_neg]
  omega

/-- An input line that int() parses is never the case-insensitive quit
token: the two branches of the selection loop are exclusive. -/
theorem pyInt_quit_exclusive (inp : Str) (i : Int) (h : pyInt inp = some i)
    (hq : strLower inp = "q".data) : False := by
  obtain ⟨c, hc⟩ : ∃ c, inp = [c] := by
    cases inp with
    | nil => simp [strLower] at hq
    | cons a t =>
      cases t with
      | nil => exact ⟨a, rfl⟩
      | cons b t2 => simp [strLower] at hq
  subst hc
  have hcq : c.toLower = 'q' := by simpa [strLower] using hq
  by_cases hsp : pySpace c = true
  · have hst : pyStrip [c] = [] := by simp [pyStrip, List.dropWhile, hsp]
    simp only [pyInt, hst, digitsVal] at h
    simp at h
  · have hst : pyStrip [c] = [c] := by simp [pyStrip, List.dropWhile, hsp]
    simp only [pyInt, hst] at h
    split at h
    · rename_i ds heq
      injection heq with h1 h2
      subst h1
      exact absurd hcq (by decide)
    · rename_i ds heq
      injection heq with h1 h2
      subst h1
      exact absurd hcq (by decide)
    · rename_i ds hne1 hne2
      by_cases hd : c.isDigit = true
      · have hcq' : c = 'q' := by rw [← toLower_of_isDigit c hd]; exact hcq
        subst hcq'
        exact absurd hd (by decide)
      · have hdv : digitsVal [c] = none := by simp [digitsVal, hd]
        rw [hdv] at h
        simp at h

/-- C6: against any non-empty menu, the quit token (case-insensitive)
ends the process, an integer input inside the bounds returns the
(value, key) pair at that index, unparsable input prints the invalid
message and re-prompts, an out of range integer prints the range
message and re-prompts; in particular a 3-option menu fed abc, 7, 1
rejects the first two inputs and returns the pair at index 1. -/
theorem c6_list_and_select_contract (options : List (Str × Str)) (inputs : List Str)
    (inp : Str) (hne : options ≠ []) :
    (strLower inp = "q".data →
      (list_and_select options (inp :: inputs)).2 = some .procQuit) ∧
    (∀ i : Int, pyInt inp = some i → 0 ≤ i → i < (options.length : Int) →
      (list_and_select options (inp :: inputs)).2 =
        some (.picked (options.getD i.toNat ([], [])).2 (options.getD i.toNat ([], [])).1)) ∧
    (pyInt inp = none → strLower inp ≠ "q".data →
      (list_and_select options (inp :: inputs)).2 = (list_and_select options inputs).2 ∧
      (list_and_select options (inp :: inputs)).1 =
        menu_lines options ++ [invalid_msg] ++ (list_and_select options inputs).1) ∧
    (∀ i : Int, pyInt inp = some i → ¬ (0 ≤ i ∧ i < (options.length : Int)) →
      (list_and_select options (inp :: inputs)).2 = (list_and_select options inputs).2 ∧
      (list_and_select options (inp :: inputs)).1 =
        menu_lines options ++ [range_msg options.length] ++ (list_and_select options inputs).1) ∧
    (∀ a b c : Str × Str,
      (list_and_select [a, b, c] ["abc".data, "7".data, "1".data]).2 =
        some (.picked b.2 b.1)) := by
  refine ⟨?_, ?_, ?_, ?_, ?_⟩
  · intro hq
    simp only [list_and_select, hq, if_pos]
  · intro i hi h0 hlen
    have hq : ¬ strLower inp = "q".data := fun hq => pyInt_quit_exclusive inp i hi hq
    simp only [list_and_select, if_neg hq, hi]
    rw [if_pos ⟨h0, hlen⟩]
  · intro hi hq
    simp only [list_and_select, if_neg hq, hi]
    exact ⟨trivial, trivial⟩
  · intro i hi hnb
    have hq : ¬ strLower inp = "q".data := fun hq => pyInt_quit_exclusive inp i hi hq
    simp only [list_and_select, if_neg hq, hi]
    rw [if_neg hnb]
    exact ⟨rfl, rfl⟩
  · intro a b c
    rfl

theorem c6_list_and_select_contract_witness :
    (list_and_select [("k0".data, "v0".data)] ["Q".data]).2 = some .procQuit ∧
    (list_and_select [("k0".data, "v0".data), ("k1".data, "v1".data), ("k2".data, "v2".data)]
        ["abc".data, "7".data, "1".data]).2 = some (.picked "v1".data "k1".data) ∧
    (list_and_select [("k0".data, "v0".data)] ["7".data, "0".data]).2 =
      some (.picked "v0".data "k0".data) :=
  ⟨(c6_list_and_select_contract [("k0".data, "v0".data)] [] "Q".data
      (by decide)).1 (by decide),
   (c6_list_and_select_contract [("k0".data, "v0".data)] [] "x".data
      (by decide)).2.2.2.2 ("k0".data, "v0".data) ("k1".data, "v1".data) ("k2".data, "v2".data),
   by
    have h1 := ((c6_list_and_select_contract [("k0".data, "v0".data)] ["0".data] "7".data
      (by decide)).2.2.2.1 7 (by decide) (by decide)).1
    have h2 := (c6_list_and_select_contract [("k0".data, "v0".data)] [] "0".data
      (by decide)).2.1 0 (by decide) (by decide) (by decide)
    rw [h1, h2]
    rfl⟩

/-- C10: on an empty options mapping list_and_select never returns a
selection; an input list free of the quit token is consumed entirely
with no outcome (the loop keeps prompting forever), only the quit token
ends it, by terminating the process. -/
theorem c10_empty_options_never_selects :
    (∀ inputs v k, (list_and_select [] inputs).2 ≠ some (.picked v k)) ∧
    (∀ inputs, (∀ x ∈ inputs, strLower x ≠ "q".data) →
      (list_and_select [] inputs).2 = none) := by
  constructor
  · intro inputs
    induction inputs with
    | nil => intro v k h; simp [list_and_select] at h
    | cons inp rest ih =>
      intro v k h
      by_cases hq : strLower inp = "q".data
      · simp only [list_and_select, hq, if_pos] at h
        simp at h
      · cases hpi : pyInt inp with
        | none =>
          simp only [list_and_select, if_neg hq, hpi] at h
          exact ih v k h
        | some i =>
          simp only [list_and_select, if_neg hq, hpi, List.length_nil] at h
          rw [if_neg (fun hc => by have h1 := hc.1; have h2 := hc.2; omega)] at h
          exact ih v k h
  · intro inputs h
    induction inputs with
    | nil => rfl
    | cons inp rest ih =>
      have hq : ¬ strLower inp = "q".data := h inp (by simp)
      cases hpi : pyInt inp with
      | none =>
        simp only [list_and_select, if_neg hq, hpi]
        exact ih (fun x hx => h x (by simp [hx]))
      | some i =>
        simp only [list_and_select, if_neg hq, hpi, List.length_nil]
        rw [if_neg (fun hc => by have h1 := hc.1; have h2 := hc.2; omega)]
        exact ih (fun x hx => h x (by simp [hx]))

theorem c10_empty_options_never_selects_witness :
    (list_and_select [] ["0".data, "x".data]).2 = none :=
  c10_empty_options_never_selects.2 ["0".data, "x".data] (by decide)

/-- C7: download_mp3 resolves a url that does not start with http by
prefixing the base origin and leaves others unchanged; on success it
writes the concatenation of the streamed chunks to the destination
(skipping the zero-length chunks changes nothing), fully overwrites any
existing file at that path, and returns true; on a transport error it
prints the diagnostic line and returns false instead of raising. -/
theorem c7_download_mp3_contract (http : Str → DlResp) (w : World) (url fp : Str) :
    (strStarts "http".data url = false → resolve_url url = base_url ++ url) ∧
    (strStarts "http".data url = true → resolve_url url = url) ∧
    (∀ cs, http (resolve_url url) = .chunks cs →
      download_mp3 http w url fp =
        ({ w with fs := dictInsert w.fs fp ((cs.filter (fun c => !c.isEmpty)).flatten) }, true) ∧
      (cs.filter (fun c => !c.isEmpty)).flatten = cs.flatten ∧
      dictLook (download_mp3 http w url fp).1.fs fp = some cs.flatten) ∧
    (∀ m, http (resolve_url url) = .failed m →
      download_mp3 http w url fp =
        ({ w with out := w.out ++ [dl_err_line fp m] }, false)) := by
  refine ⟨?_, ?_, ?_, ?_⟩
  · intro h
    simp [resolve_url, h]
  · intro h
    simp [resolve_url, h]
  · intro cs h
    have hd : download_mp3 http w url fp =
        ({ w with fs := dictInsert w.fs fp ((cs.filter (fun c => !c.isEmpty)).flatten) }, true) := by
      simp only [download_mp3]
      rw [show (if strStarts "http".data url then url else base_url ++ url) =
            resolve_url url from rfl, h]
    refine ⟨hd, flatten_filter_nonempty cs, ?_⟩
    rw [hd]
    show dictLook (dictInsert w.fs fp ((cs.filter (fun c => !c.isEmpty)).flatten)) fp =
      some cs.flatten
    rw [flatten_filter_nonempty cs]
    exact dictLook_dictInsert fp cs.flatten w.fs
  · intro m h
    simp only [download_mp3]
    rw [show (if strStarts "http".data url then url else base_url ++ url) =
          resolve_url url from rfl, h]

theorem c7_download_mp3_contract_witness :
    resolve_url "/a.mp3".data = "https://valaam.ru/a.mp3".data ∧
    download_mp3 (fun _ => .chunks [[1], [], [2, 3]]) ⟨[("p".data, [9])], [], []⟩
      "/a.mp3".data "p".data = (⟨[("p".data, [1, 2, 3])], [], []⟩, true) ∧
    dictLook (download_mp3 (fun _ => .chunks [[1], [], [2, 3]]) ⟨[("p".data, [9])], [], []⟩
      "/a.mp3".data "p".data).1.fs "p".data = some [1, 2, 3] ∧
    download_mp3 (fun _ => .failed "e".data) w0 "/a.mp3".data "p".data =
      (⟨[], [], [dl_err_line "p".data "e".data]⟩, false) := by
  have h := c7_download_mp3_contract (fun _ => .chunks [[1], [], [2, 3]])
    ⟨[("p".data, [9])], [], []⟩ "/a.mp3".data "p".data
  have h2 := c7_download_mp3_contract (fun _ => .failed "e".data) w0 "/a.mp3".data "p".data
  refine ⟨by rw [h.1 (by decide)]; rfl, ?_, ?_, h2.2.2.2 "e".data rfl⟩
  · rw [(h.2.2.1 [[1], [], [2, 3]] rfl).1]
    rfl
  · exact (h.2.2.1 [[1], [], [2, 3]] rfl).2.2

/-- C8 counterexample: a response with the non-2xx final status 304 is
returned as content, not raised on: raise_for_status raises only for a
status in 400..599, so the claimed failure on any non-2xx status does
not hold. -/
theorem c8_non_2xx_counterexample :
    ¬ (200 ≤ 304 ∧ 304 < 300) ∧
    get_page (fun _ _ => .resp 304 [0x6f, 0x6b]) "u".data = .ok "ok".data :=
  ⟨by decide, by rfl⟩

/-- C8 (amended): get_page consults the network exactly once, at the
given url with timeout 10, and raises RuntimeError carrying the cause
on a transport failure or a status in 400..599; any other response is
decoded as UTF-8 and returned verbatim. -/
theorem c8_get_page_contract (http : Str → Nat → HttpAnswer) (url : Str) :
    (∀ m, http url 10 = .failed m →
      get_page http url = .error (.runtimeError (fetch_err_text ++ m))) ∧
    (∀ st body, http url 10 = .resp st body → 400 ≤ st → st < 600 →
      get_page http url = .error (.runtimeError (fetch_err_text ++ http_err_msg st))) ∧
    (∀ st body t, http url 10 = .resp st body → ¬ (400 ≤ st ∧ st < 600) →
      utf8_decode body = some t → get_page http url = .ok t) ∧
    (∀ http2 : Str → Nat → HttpAnswer, http url 10 = http2 url 10 →
      get_page http url = get_page http2 url) := by
  refine ⟨?_, ?_, ?_, ?_⟩
  · intro m h
    simp only [get_page, h]
  · intro st body h h4 h6
    simp only [get_page, h]
    rw [if_pos ⟨h4, h6⟩]
  · intro st body t h hnb hdec
    simp only [get_page, h]
    rw [if_neg hnb, hdec]
  · intro http2 h
    simp only [get_page, h]

theorem c8_get_page_contract_witness :
    get_page (fun _ _ => .failed "boom".data) "u".data =
      .error (.runtimeError (fetch_err_text ++ "boom".data)) ∧
    get_page (fun _ _ => .resp 404 []) "u".data =
      .error (.runtimeError (fetch_err_text ++ http_err_msg 404)) ∧
    get_page (fun _ _ => .resp 200 [0x6f, 0x6b]) "u".data = .ok "ok".data :=
  ⟨(c8_get_page_contract (fun _ _ => .failed "boom".data) "u".data).1 "boom".data rfl,
   (c8_get_page_contract (fun _ _ => .resp 404 []) "u".data).2.1 404 [] rfl
     (by decide) (by decide),
   (c8_get_page_contract (fun _ _ => .resp 200 [0x6f, 0x6b]) "u".data).2.2.1 200
     [0x6f, 0x6b] "ok".data rfl (by decide) (by decide)⟩

/-- The bulk tag call binds all four parameters and writes the four
fields: title and artist from the song, album as given, tracknumber
the stringified index. -/
theorem call_add_metadata_bulk (fp album : Str) (sg : Song) (n : Nat) :
    call_add_metadata [.vstr fp, .vstr album, .vsong sg]
      [("track_number".data, .vint n)] =
      .ok ⟨sg.name, album, sg.artist, str_of_nat n⟩ := rfl

/-- The single-track tag call of line 246 leaves song_data unbound and
raises TypeError before any field is written. -/
theorem call_add_metadata_single_raises (fp : Str) (sg : Song) (n : Nat) :
    call_add_metadata [.vstr fp, .vsong sg] [("track_number".data, .vint n)] =
      .error (.typeError ("missing required argument: ".data ++ "song_data".data)) := rfl

theorem download_playlist_go_spec (http : Str → DlResp) (album : Str) :
    ∀ (songs : List Song) (w : World) (idx : Nat),
      ∃ w', download_playlist_go http album w songs idx = .ok w' ∧
        w'.tagLog = w.tagLog ++ bulk_tags http album songs idx := by
  intro songs
  induction songs with
  | nil =>
    intro w idx
    exact ⟨w, rfl, by simp [bulk_tags]⟩
  | cons sg rest ih =>
    intro w idx
    cases hh : http (resolve_url sg.url) with
    | chunks cs =>
      have hdl : download_mp3 http w sg.url (track_file_path album sg.name) =
          ({ w with fs := dictInsert w.fs (track_file_path album sg.name) ((cs.filter (fun c => !c.isEmpty)).flatten) }, true) := by
        simp only [download_mp3]
        rw [show (if strStarts "http".data sg.url then sg.url else base_url ++ sg.url) =
              resolve_url sg.url from rfl, hh]
      have hok : dl_ok http sg.url = true := by simp [dl_ok, hh]
      obtain ⟨w', hw', htl⟩ := ih
        { w with fs := dictInsert w.fs (track_file_path album sg.name) ((cs.filter (fun c => !c.isEmpty)).flatten),
                 tagLog := w.tagLog ++ [(track_file_path album sg.name, ⟨sg.name, album, sg.artist, str_of_nat idx⟩)] } (idx + 1)
      refine ⟨w', ?_, ?_⟩
      · simp only [download_playlist_go, hdl, call_add_metadata_bulk]
        exact hw'
      · rw [htl]
        simp [bulk_tags, hok, List.append_assoc]
    | failed m =>
      have hdl : download_mp3 http w sg.url (track_file_path album sg.name) =
          ({ w with out := w.out ++ [dl_err_line (track_file_path album sg.name) m] }, false) := by
        simp only [download_mp3]
        rw [show (if strStarts "http".data sg.url then sg.url else base_url ++ sg.url) =
              resolve_url sg.url from rfl, hh]
      have hok : dl_ok http sg.url = false := by simp [dl_ok, hh]
      obtain ⟨w', hw', htl⟩ := ih
        { w with out := w.out ++ [dl_err_line (track_file_path album sg.name) m] } (idx + 1)
      refine ⟨w', ?_, ?_⟩
      · simp only [download_playlist_go, hdl]
        exact hw'
      · rw [htl]
        simp [bulk_tags, hok]

theorem bulk_tags_mem (http : Str → DlResp) (album : Str) :
    ∀ (songs : List Song) (base : Nat) (i : Nat) (hi : i < songs.length),
      dl_ok http (songs.get ⟨i, hi⟩).url = true →
      (track_file_path album (songs.get ⟨i, hi⟩).name,
        ⟨(songs.get ⟨i, hi⟩).name, album, (songs.get ⟨i, hi⟩).artist,
          str_of_nat (base + i)⟩) ∈ bulk_tags http album songs base := by
  intro songs
  induction songs with
  | nil =>
    intro base i hi
    exact absurd hi (by simp)
  | cons sg rest ih =>
    intro base i hi hok
    cases i with
    | zero =>
      simp only [List.get] at hok ⊢
      simp [bulk_tags, hok]
    | succ j =>
      have hj : j < rest.length := by
        simpa [List.length_cons, Nat.succ_lt_succ_iff] using hi
      have hmem := ih (base + 1) j hj (by simpa [List.get] using hok)
      have harith : base + 1 + j = base + (j + 1) := by omega
      rw [harith] at hmem
      simp only [bulk_tags, List.get]
      exact List.mem_append_right _ hmem

/-- C5: the bulk loop tags each successfully downloaded track with
tracknumber equal to its 1-based position, independent of the failures
before it; a failed track is not tagged and the loop continues. -/
theorem c5_bulk_track_numbers (http : Str → DlResp) (w : World) (songs : List Song)
    (album : Str) :
    ∃ w', download_playlist http w songs album = .ok w' ∧
      w'.tagLog = w.tagLog ++ bulk_tags http album songs 1 ∧
      ∀ (i : Nat) (hi : i < songs.length), dl_ok http (songs.get ⟨i, hi⟩).url = true →
        (track_file_path album (songs.get ⟨i, hi⟩).name,
          ⟨(songs.get ⟨i, hi⟩).name, album, (songs.get ⟨i, hi⟩).artist,
            str_of_nat (i + 1)⟩) ∈ w'.tagLog := by
  obtain ⟨w', hw', htl⟩ := download_playlist_go_spec http album songs w 1
  refine ⟨w', hw', htl, ?_⟩
  intro i hi hok
  rw [htl]
  refine List.mem_append_right _ ?_
  have hmem := bulk_tags_mem http album songs 1 i hi hok
  rwa [Nat.add_comm 1 i] at hmem

theorem c5_bulk_track_numbers_witness :
    ∃ w', download_playlist httpFailS2 w0 [songA, songB, songC] "A".data = .ok w' ∧
      w'.tagLog =
        [("downloads/A/Song1.mp3".data, ⟨"Song1".data, "A".data, "X".data, "1".data⟩),
         ("downloads/A/Song3.mp3".data, ⟨"Song3".data, "A".data, "Z".data, "3".data⟩)] := by
  obtain ⟨w', h1, h2, h3⟩ := c5_bulk_track_numbers httpFailS2 w0 [songA, songB, songC] "A".data
  refine ⟨w', h1, ?_⟩
  rw [h2]
  rfl

/-- C1 (code bug): in the single-track branch, once the chosen name is
re-located in the playlist (first match) and the download succeeds, the
tag call of line 246 passes file_path and the song record positionally
and track_number by keyword, leaving the required parameter song_data
unbound: the call raises TypeError, so the downloaded file is never
tagged with the four fields the claim describes (in particular the
album label is never written). -/
theorem c1_single_track_tag_raises (http : Str → DlResp) (w : World)
    (playlist : List Song) (album selected_song song_name : Str) (sg : Song)
    (hfind : playlist.find? (fun s => s.name == song_name) = some sg)
    (hok : (download_mp3 http w selected_song (track_file_path album song_name)).2 = true) :
    main_download_one http w playlist album selected_song song_name =
      .error (.typeError ("missing required argument: ".data ++ "song_data".data)) ∧
    ∀ w', main_download_one http w playlist album selected_song song_name ≠ .ok w' := by
  have h1 : main_download_one http w playlist album selected_song song_name =
      .error (.typeError ("missing required argument: ".data ++ "song_data".data)) := by
    simp only [main_download_one, hok, hfind, if_true]
    rfl
  exact ⟨h1, fun w' hw' => Except.noConfusion (h1 ▸ hw')⟩

theorem c1_single_track_tag_raises_witness :
    main_download_one httpOneChunk w0 [songA] "A".data "/s1.mp3".data "Song1".data =
      .error (.typeError ("missing required argument: ".data ++ "song_data".data)) :=
  (c1_single_track_tag_raises httpOneChunk w0 [songA] "A".data "/s1.mp3".data
    "Song1".data songA rfl rfl).1
